import Mathlib

/-!
Verification of the compliance-advisor core (src/app.py) against its
natural-language specification.

The embedding below translates the three pieces of business logic of
src/app.py into Lean:

* the keyword matcher `match_category` (app.py lines 201-230),
* the requirement filter inside `analyze_compliance` (app.py lines 331-388),
* the summary-metric computation of `main`'s report block (app.py lines
  486-568).

Python strings are embedded as `String`, processed through character-list
primitives that mirror the `str` methods used by the source
(`lower`, `strip`, `split`, substring `in`).  Python floats are embedded as
`ℚ` with the literal decimal constants of the source (`0.3` as `3/10`,
`0.1` as `1/10`).  A pandas row is embedded as a record whose optional
columns are `Option String` (`none` standing for an absent or NaN cell, so
that `row.get(c, d)` becomes `Option.getD` and
`c in row and pd.notna(row[c])` becomes `Option.isSome`).

Source fidelity notes, referenced from the definitions below:

* app.py line 224 (`position_bonus = 1 + (0.1 * (len(keywords) -
  keywords.index(keyword)) / len(keywords)`) is missing one closing
  parenthesis; the embedding closes it at the end of the line, which is the
  reading announced by the code's own comment
  ("Position bonus (terms earlier in list are more important)").
* app.py lines 231-249 repeat the body of `match_category` after its
  `return`, behind a stray string delimiter; that text is dead and is not
  embedded.
* `keywords.index(keyword)` is applied to the lower-cased keyword; when the
  lower-cased form is absent from the list CPython would raise ValueError,
  while `List.indexOf` returns the list length (position bonus 1).  All
  taxonomies shipped in `get_config` are already lower-case, where the two
  semantics agree.
-/

/-- Characters of the lower-cased string: embeds Python `str.lower`
(ASCII range, which covers every keyword and label of the source). -/
def lowerS (s : String) : String := ⟨s.data.map Char.toLower⟩

/-- Drop whitespace from both ends of a character list. -/
def trimL (l : List Char) : List Char :=
  (((l.dropWhile Char.isWhitespace).reverse).dropWhile Char.isWhitespace).reverse

/-- Embeds Python `str.strip()`. -/
def trimS (s : String) : String := ⟨trimL s.data⟩

/-- Does `needle` occur at the head of the second list? -/
def startsL : List Char → List Char → Bool
  | [], _ => true
  | _ :: _, [] => false
  | a :: as, b :: bs => a == b && startsL as bs

/-- Does `needle` occur somewhere in the second list? -/
def subL (needle : List Char) : List Char → Bool
  | [] => needle.isEmpty
  | b :: bs => startsL needle (b :: bs) || subL needle bs

/-- Embeds Python substring membership `needle in hay`. -/
def substrB (needle hay : String) : Bool := subL needle.data hay.data

/-- Split a character list on a separator character; embeds Python
`str.split(sep)` for the one-character separators "," and ";" used by the
source (so the empty string splits to one empty piece). -/
def splitChar (sep : Char) : List Char → List (List Char)
  | [] => [[]]
  | c :: cs =>
    match splitChar sep cs with
    | [] => [[]]
    | g :: gs => if c == sep then [] :: g :: gs else (c :: g) :: gs

/-- String-level wrapper of `splitChar`. -/
def splitS (sep : Char) (s : String) : List String :=
  (splitChar sep s.data).map (fun l => ⟨l⟩)

/-- Count of whitespace-separated words; the accumulator records whether the
scan stands inside a word. -/
def wordCountAux : Bool → List Char → Nat
  | _, [] => 0
  | inWord, c :: cs =>
    if c.isWhitespace then wordCountAux false cs
    else (if inWord then 0 else 1) + wordCountAux true cs

/-- Embeds Python `len(s.split())`: the number of whitespace-separated
words of `s` (0 for the empty or all-whitespace string). -/
def wordCount (s : String) : Nat := wordCountAux false s.data

/-! ## The category matcher (app.py lines 201-230) -/

/-- The score contribution of one keyword of a label, app.py lines 219-225:
0 when the lower-cased keyword is not a substring of the text, otherwise
`term_weight * position_bonus` with
`term_weight = 1 + len(keyword.split()) * 0.3` and
`position_bonus = 1 + 0.1 * (len(keywords) - keywords.index(keyword)) / len(keywords)`
(parenthesis closed per the fidelity note in the file header). -/
def contrib (t : String) (kws : List String) (kw : String) : ℚ :=
  let kw' := lowerS kw
  if substrB kw' t then
    (1 + (wordCount kw' : ℚ) * (3 / 10)) *
      (1 + (1 / 10) * (((kws.length : ℚ) - (kws.indexOf kw' : ℚ)) / (kws.length : ℚ)))
  else 0

/-- The inner loop of `match_category` (app.py lines 216-225): fold the
keywords of one label, adding each matching keyword's contribution to the
running `score` that starts at 0. -/
def scoreLoop (t : String) (kws : List String) : ℚ :=
  kws.foldl
    (fun score kw =>
      let kw' := lowerS kw
      if substrB kw' t then
        score +
          (1 + (wordCount kw' : ℚ) * (3 / 10)) *
            (1 + (1 / 10) * (((kws.length : ℚ) - (kws.indexOf kw' : ℚ)) / (kws.length : ℚ)))
      else score)
    0

/-- One label's total score written as a sum, for stating theorems; proved
equal to the source-shaped `scoreLoop` below. -/
def labelScore (t : String) (kws : List String) : ℚ :=
  (kws.map (contrib t kws)).sum

/-- The outer loop of `match_category` (app.py lines 215-228): the `scores`
dict, built in iteration order and keeping only labels with positive score.
Dict insertion in iteration order is embedded as appending to an
association list. -/
def scoresOf (t : String) (rules : List (String × List String)) :
    List (String × ℚ) :=
  rules.foldl
    (fun scores p =>
      let s := scoreLoop t p.2
      if 0 < s then scores ++ [(p.1, s)] else scores)
    []

/-- Embeds `max(scores.items(), key=lambda x: x[1])` (app.py line 230):
CPython `max` keeps the first item and replaces it only when a later item's
key is strictly greater, so the first maximal item wins. -/
def maxBySnd : List (String × ℚ) → Option (String × ℚ)
  | [] => none
  | x :: xs => some (xs.foldl (fun best y => if best.2 < y.2 then y else best) x)

/-- Embeds `match_category` (app.py lines 201-230): lower-case the text,
score every label, return the best-scoring label or "Unknown" when every
label scored zero. -/
def match_category (text : String) (rules : List (String × List String)) :
    String :=
  let t := lowerS text
  match maxBySnd (scoresOf t rules) with
  | some best => best.1
  | none => "Unknown"

/-- A call of `match_category` paired with the rules mapping as the call
leaves it: the source body only reads `rules` (iteration, `len`, `index`),
and the `lru_cache` wrapper memoises without changing the returned value,
so a call returns its value and the rules unchanged. -/
def match_category_call (text : String) (rules : List (String × List String)) :
    String × List (String × List String) :=
  (match_category text rules, rules)

/-- Modelled from the spec for comparison with the source (refinement):
the per-keyword weight the claim describes — 2 when the keyword equals the
entire trimmed input, 1 when it occurs anywhere as a substring of the
lower-cased text, 0 otherwise. -/
def specWeight (t : String) (kw : String) : ℚ :=
  if lowerS kw = trimS (lowerS t) then 2
  else if substrB (lowerS kw) (lowerS t) then 1
  else 0

/-- Modelled from the spec for comparison with the source (refinement):
a label's score normalized by its keyword count, as the claim describes. -/
def specNormScore (t : String) (kws : List String) : ℚ :=
  (kws.map (specWeight t)).sum / (kws.length : ℚ)

/-! ## The taxonomies of get_config (app.py lines 142-165) -/

/-- The domain taxonomy `default_domains` of `get_config`. -/
def default_domains : List (String × List String) :=
  [("healthcare", ["healthcare", "hospital", "patient", "medical", "clinic", "pharma", "health"]),
   ("finance", ["bank", "finance", "credit card", "payment", "fintech", "investment", "insurance"]),
   ("ecommerce", ["ecommerce", "shopping", "online store", "retail", "marketplace"]),
   ("ai solutions", ["ai", "artificial intelligence", "machine learning", "llm", "model", "data science"]),
   ("education", ["education", "school", "university", "learning", "edtech"]),
   ("government", ["government", "public sector", "defense", "military"])]

/-- The data-type taxonomy `default_data_types` of `get_config`. -/
def default_data_types : List (String × List String) :=
  [("PHI", ["health data", "phi", "patient", "medical record", "clinical", "diagnosis"]),
   ("PII", ["personal data", "name", "address", "email", "aadhar", "pii", "dob", "ssn"]),
   ("financial", ["financial", "credit card", "bank account", "transaction", "upi", "fintech"]),
   ("biometric", ["fingerprint", "face recognition", "iris scan", "biometric"]),
   ("children", ["child", "minor", "student", "under 18"])]

/-- The region taxonomy `default_regions` of `get_config`. -/
def default_regions : List (String × List String) :=
  [("India", ["india", "indian", "bharat"]),
   ("USA", ["usa", "united states", "america", "us"]),
   ("EU", ["europe", "eu", "gdpr", "germany", "france", "spain", "italy"]),
   ("Canada", ["canada", "pipeda"]),
   ("Brazil", ["brazil", "lgpd"]),
   ("APAC", ["asia", "singapore", "australia", "japan", "korea"])]

/-! ## The requirement filter (app.py lines 331-388) -/

/-- One row of the compliance table.  The required columns (Compliance
Name, Domain) are plain strings; every column the source reads through
`row.get` or guards with `pd.notna` is an `Option String`, `none` standing
for an absent or NaN cell. -/
structure Row where
  complianceName : String
  domain : String
  appliesTo : Option String
  followedBy : Option String
  criticality : Option String
  techReq : Option String
  procReq : Option String
  docReq : Option String
  whyRequired : Option String
  implementation : Option String
  references : Option String

/-- Embeds app.py line 363: split the Applies To cell on ",", strip and
lower-case each piece. -/
def parseAppliesTo (s : String) : List String :=
  (splitS ',' s).map (fun x => lowerS (trimS x))

/-- Embeds app.py line 364: the Followed flag is true exactly when the
cell, stripped and lower-cased, equals "yes". -/
def rowFollowed (r : Row) : Bool :=
  lowerS (trimS (r.followedBy.getD "")) == "yes"

/-- Embeds app.py lines 368-371: keep the checklist-column cells that are
present and not NaN, in column order, skipping the rest. -/
def checklistOf (r : Row) : List String :=
  [r.techReq, r.procReq, r.docReq].filterMap id

/-- Embeds app.py line 386: split the References cell on ";", strip each
piece and keep the non-empty ones. -/
def parseRefs (s : String) : List String :=
  ((splitS ';' s).map trimS).filter (fun x => x != "")

/-- The matching rule of `analyze_compliance`, app.py lines 373-378:
`domain_match and (data_type_match or region_match)`, where the domain must
equal the matched domain or be "all", and each of the two applicability
tests passes when the matched label or "all" appears in the parsed
Applies To list. -/
def rowMatches (dom dt rg : String) (r : Row) : Bool :=
  let domain := lowerS r.domain
  let applies := parseAppliesTo (r.appliesTo.getD "")
  let domainMatch := lowerS dom == domain || domain == "all"
  let dataTypeMatch := applies.contains (lowerS dt) || applies.contains "all"
  let regionMatch := applies.contains (lowerS rg) || applies.contains "all"
  domainMatch && (dataTypeMatch || regionMatch)

/-- Modelled from the spec for comparison with the source (refinement):
the inclusion rule exactly as the claim states it, where the applicability
wildcard is "all" OR "global". -/
def claim_included (dom dt rg : String) (r : Row) : Bool :=
  let applies := parseAppliesTo (r.appliesTo.getD "")
  (lowerS dom == lowerS r.domain || lowerS r.domain == "all") &&
    (applies.contains (lowerS dt) || applies.contains (lowerS rg) ||
      applies.contains "all" || applies.contains "global")

/-- The dict appended for one matching row, app.py lines 379-387. -/
structure MatchEntry where
  name : String
  followed : Bool
  criticality : String
  why : String
  implementation : String
  checklist : List String
  references : List String

/-- Embeds app.py lines 379-387: the entry built from one matching row,
with the defaults of lines 364-365 and 383-386 for missing cells
(Followed "", Criticality "Medium", Why Required "", Implementation
Guidance "", References ""). -/
def buildMatch (r : Row) : MatchEntry :=
  { name := r.complianceName
    followed := rowFollowed r
    criticality := trimS (r.criticality.getD "Medium")
    why := r.whyRequired.getD ""
    implementation := r.implementation.getD ""
    checklist := checklistOf r
    references := parseRefs (r.references.getD "") }

/-- Embeds the row loop of `analyze_compliance` (app.py lines 359-387):
walk the table in order, appending `buildMatch` of every row that satisfies
`rowMatches` to the `compliance_matches` accumulator. -/
def compliance_matches (dom dt rg : String) (rows : List Row) :
    List MatchEntry :=
  rows.foldl
    (fun acc r => if rowMatches dom dt rg r then acc ++ [buildMatch r] else acc)
    []

/-- The record-selection stage of the loop: the rows that satisfy the
matching rule, in table order (the loop of app.py lines 360-387 fuses this
selection with the `buildMatch` projection). -/
def matching_rows (dom dt rg : String) (rows : List Row) : List Row :=
  rows.filter (rowMatches dom dt rg)

/-- Embeds `analyze_compliance` (app.py lines 331-388): lower-case the
description, match the three taxonomies, and filter the table. -/
def analyze_compliance (description : String) (rows : List Row) :
    (String × String × String) × List MatchEntry :=
  let text := lowerS description
  let matchedDomain := match_category text default_domains
  let matchedDataType := match_category text default_data_types
  let matchedRegion := match_category text default_regions
  ((matchedDomain, matchedDataType, matchedRegion),
    compliance_matches matchedDomain matchedDataType matchedRegion rows)

/-! ## The summary metrics of main's report block (app.py lines 486-568) -/

/-- Embeds app.py line 489: the matched entries already followed. -/
def already_compliant (ms : List MatchEntry) : List MatchEntry :=
  ms.filter (fun c => c.followed)

/-- Embeds app.py line 490: the matched entries not yet followed. -/
def not_compliant (ms : List MatchEntry) : List MatchEntry :=
  ms.filter (fun c => !c.followed)

/-- Embeds the report-summary block of `main` (app.py lines 554-567).
After the display branch, the report text computes
`len(already_compliant)/len(compliance_matches)` and
`len(not_compliant)/len(compliance_matches)` unconditionally; when
`compliance_matches` is empty the two list names were never bound (the
`else` branch of line 486 did not run) and the denominator is zero, so the
block raises instead of producing a value — embedded as `none`. -/
def report_summary (ms : List MatchEntry) : Option (ℚ × ℚ) :=
  if ms.isEmpty then none
  else
    some (((already_compliant ms).length : ℚ) / (ms.length : ℚ),
      ((not_compliant ms).length : ℚ) / (ms.length : ℚ))

/-! ## Helper lemmas: the matcher's loops in closed form -/

/-- The keyword fold of one label computes the sum of the keyword
contributions. -/
theorem scoreLoop_eq (t : String) (kws : List String) :
    scoreLoop t kws = labelScore t kws := by
  have aux : ∀ (l : List String) (a : ℚ),
      List.foldl
        (fun score kw =>
          let kw' := lowerS kw
          if substrB kw' t then
            score +
              (1 + (wordCount kw' : ℚ) * (3 / 10)) *
                (1 + (1 / 10) *
                  (((kws.length : ℚ) - (kws.indexOf kw' : ℚ)) / (kws.length : ℚ)))
          else score)
        a l = a + (l.map (contrib t kws)).sum := by
    intro l
    induction l with
    | nil => intro a; simp
    | cons kw l ih =>
      intro a
      simp only [List.foldl_cons, List.map_cons, List.sum_cons]
      rw [ih]
      unfold contrib
      by_cases h : substrB (lowerS kw) t
      · simp [h]; ring
      · simp [h]
  unfold scoreLoop labelScore
  rw [aux]
  simp

/-- The label fold builds exactly the positives-only association list. -/
theorem scoresOf_eq (t : String) (rules : List (String × List String)) :
    scoresOf t rules =
      rules.filterMap
        (fun p =>
          if 0 < scoreLoop t p.2 then some (p.1, scoreLoop t p.2) else none) := by
  have aux : ∀ (l : List (String × List String)) (acc : List (String × ℚ)),
      List.foldl
        (fun scores p =>
          let s := scoreLoop t p.2
          if 0 < s then scores ++ [(p.1, s)] else scores)
        acc l =
        acc ++
          l.filterMap
            (fun p =>
              if 0 < scoreLoop t p.2 then some (p.1, scoreLoop t p.2) else none) := by
    intro l
    induction l with
    | nil => intro acc; simp
    | cons p l ih =>
      intro acc
      simp only [List.foldl_cons, List.filterMap_cons]
      by_cases h : 0 < scoreLoop t p.2
      · simp only [h, if_pos h, ite_true]
        rw [ih]
        simp
      · simp only [h, if_neg h, ite_false]
        rw [ih]
  unfold scoresOf
  rw [aux]
  simp

/-- The fold inside `maxBySnd` returns its start value or a list element. -/
theorem maxFold_mem (xs : List (String × ℚ)) :
    ∀ x : String × ℚ,
      xs.foldl (fun best y => if best.2 < y.2 then y else best) x = x ∨
        xs.foldl (fun best y => if best.2 < y.2 then y else best) x ∈ xs := by
  induction xs with
  | nil => intro x; left; rfl
  | cons y ys ih =>
    intro x
    simp only [List.foldl_cons]
    rcases ih (if x.2 < y.2 then y else x) with h | h
    · rw [h]
      by_cases hc : x.2 < y.2
      · right; simp [hc]
      · left; simp [hc]
    · right; exact List.mem_cons_of_mem _ h

/-- The fold inside `maxBySnd` dominates its start value and every list
element. -/
theorem maxFold_ge (xs : List (String × ℚ)) :
    ∀ x : String × ℚ,
      x.2 ≤ (xs.foldl (fun best y => if best.2 < y.2 then y else best) x).2 ∧
        ∀ q ∈ xs,
          q.2 ≤ (xs.foldl (fun best y => if best.2 < y.2 then y else best) x).2 := by
  induction xs with
  | nil => intro x; exact ⟨le_refl _, by simp⟩
  | cons y ys ih =>
    intro x
    simp only [List.foldl_cons]
    obtain ⟨h1, h2⟩ := ih (if x.2 < y.2 then y else x)
    have hx : x.2 ≤ (if x.2 < y.2 then y else x).2 := by
      by_cases hc : x.2 < y.2
      · simp [hc]; exact le_of_lt hc
      · simp [hc]
    have hy : y.2 ≤ (if x.2 < y.2 then y else x).2 := by
      by_cases hc : x.2 < y.2
      · simp [hc]
      · simp [hc]; exact le_of_not_lt hc
    refine ⟨le_trans hx h1, ?_⟩
    intro q hq
    rcases List.mem_cons.mp hq with rfl | hq
    · exact le_trans hy h1
    · exact h2 q hq

/-- A value `maxBySnd` returns is an element of its argument. -/
theorem maxBySnd_mem (l : List (String × ℚ)) (p : String × ℚ)
    (h : maxBySnd l = some p) : p ∈ l := by
  cases l with
  | nil => simp [maxBySnd] at h
  | cons x xs =>
    simp only [maxBySnd, Option.some.injEq] at h
    rcases maxFold_mem xs x with hm | hm
    · rw [← h, hm]; exact List.mem_cons_self _ _
    · rw [← h]; exact List.mem_cons_of_mem _ hm

/-- A value `maxBySnd` returns dominates every element of its argument. -/
theorem maxBySnd_ge (l : List (String × ℚ)) (p : String × ℚ)
    (h : maxBySnd l = some p) : ∀ q ∈ l, q.2 ≤ p.2 := by
  cases l with
  | nil => simp [maxBySnd] at h
  | cons x xs =>
    simp only [maxBySnd, Option.some.injEq] at h
    intro q hq
    obtain ⟨h1, h2⟩ := maxFold_ge xs x
    rcases List.mem_cons.mp hq with rfl | hq
    · rw [← h]; exact h1
    · rw [← h]; exact h2 q hq

/-- `maxBySnd` returns `none` exactly on the empty list. -/
theorem maxBySnd_eq_none (l : List (String × ℚ)) :
    maxBySnd l = none ↔ l = [] := by
  cases l <;> simp [maxBySnd]

/-- Every keyword contribution is non-negative. -/
theorem contrib_nonneg (t : String) (kws : List String) (kw : String) :
    0 ≤ contrib t kws kw := by
  unfold contrib
  by_cases h : substrB (lowerS kw) t
  · simp only [h, if_pos, ite_true]
    apply mul_nonneg
    · positivity
    · have hle : (kws.indexOf (lowerS kw) : ℚ) ≤ (kws.length : ℚ) := by
        exact_mod_cast List.indexOf_le_length
      have hsub : (0 : ℚ) ≤ (kws.length : ℚ) - (kws.indexOf (lowerS kw) : ℚ) :=
        sub_nonneg.mpr hle
      have hn : (0 : ℚ) ≤ (kws.length : ℚ) := by positivity
      have := div_nonneg hsub hn
      linarith
  · simp [h]

/-- Every label score is non-negative. -/
theorem labelScore_nonneg (t : String) (kws : List String) :
    0 ≤ labelScore t kws := by
  unfold labelScore
  apply List.sum_nonneg
  intro x hx
  obtain ⟨kw, _, rfl⟩ := List.mem_map.mp hx
  exact contrib_nonneg t kws kw

/-! ## Claims about the category matcher -/

/-- C2 (counterexample): the matcher does not return the label with the
maximum normalized 2/1-weight score.  On text "abcdef x y z" with labels
A = ["abcdef"] and B = ["x","y","z","w"], label A has the strictly greater
normalized score under the claim's scheme (1 against 3/4), yet the source's
scoring (term-length weight times position bonus, never normalized) makes
the matcher return B. -/
theorem matcher_not_spec_argmax :
    match_category "abcdef x y z" [("A", ["abcdef"]), ("B", ["x", "y", "z", "w"])] = "B" ∧
      specNormScore "abcdef x y z" ["x", "y", "z", "w"] <
        specNormScore "abcdef x y z" ["abcdef"] := by
  have ht : lowerS "abcdef x y z" = "abcdef x y z" := by decide
  have hA : scoreLoop "abcdef x y z" ["abcdef"] = 143 / 100 := by
    rw [scoreLoop_eq]
    unfold labelScore contrib
    norm_num [show lowerS "abcdef" = "abcdef" from by decide,
      show substrB "abcdef" "abcdef x y z" = true from by decide,
      show wordCount "abcdef" = 1 from by decide,
      show List.indexOf "abcdef" ["abcdef"] = 0 from by decide]
  have hB : scoreLoop "abcdef x y z" ["x", "y", "z", "w"] = 1677 / 400 := by
    rw [scoreLoop_eq]
    unfold labelScore contrib
    norm_num [show lowerS "x" = "x" from by decide,
      show lowerS "y" = "y" from by decide,
      show lowerS "z" = "z" from by decide,
      show lowerS "w" = "w" from by decide,
      show substrB "x" "abcdef x y z" = true from by decide,
      show substrB "y" "abcdef x y z" = true from by decide,
      show substrB "z" "abcdef x y z" = true from by decide,
      show substrB "w" "abcdef x y z" = false from by decide,
      show wordCount "x" = 1 from by decide,
      show wordCount "y" = 1 from by decide,
      show wordCount "z" = 1 from by decide,
      show List.indexOf "x" ["x", "y", "z", "w"] = 0 from by decide,
      show List.indexOf "y" ["x", "y", "z", "w"] = 1 from by decide,
      show List.indexOf "z" ["x", "y", "z", "w"] = 2 from by decide]
  constructor
  · show (match maxBySnd (scoresOf (lowerS "abcdef x y z")
        [("A", ["abcdef"]), ("B", ["x", "y", "z", "w"])]) with
      | some best => best.1
      | none => "Unknown") = "B"
    rw [ht, scoresOf_eq]
    norm_num [List.filterMap, hA, hB, maxBySnd]
  · unfold specNormScore specWeight
    rw [ht]
    norm_num [show trimS "abcdef x y z" = "abcdef x y z" from by decide,
      show ("x" : String) ≠ "abcdef x y z" from by decide,
      show ("y" : String) ≠ "abcdef x y z" from by decide,
      show ("z" : String) ≠ "abcdef x y z" from by decide,
      show ("w" : String) ≠ "abcdef x y z" from by decide,
      show ("abcdef" : String) ≠ "abcdef x y z" from by decide,
      show lowerS "x" = "x" from by decide,
      show lowerS "y" = "y" from by decide,
      show lowerS "z" = "z" from by decide,
      show lowerS "w" = "w" from by decide,
      show lowerS "abcdef" = "abcdef" from by decide,
      show substrB "x" "abcdef x y z" = true from by decide,
      show substrB "y" "abcdef x y z" = true from by decide,
      show substrB "z" "abcdef x y z" = true from by decide,
      show substrB "w" "abcdef x y z" = false from by decide,
      show substrB "abcdef" "abcdef x y z" = true from by decide]

/-- C2 (amended): for every input text and taxonomy, each label's score is
the sum over its keywords of the per-keyword weight
(1 + 0.3·wordcount)·(1 + 0.1·(n−i)/n) for keywords occurring as substrings
of the lower-cased text and 0 otherwise, with no normalization by keyword
count and no extra weight for whole-text equality; the matcher returns a
label attaining the maximal score when some label scores positively, and
"Unknown" when every label scores zero. -/
theorem matcher_score_characterization (text : String)
    (rules : List (String × List String)) :
    (match_category text rules = "Unknown" ∧
        ∀ p ∈ rules, labelScore (lowerS text) p.2 = 0) ∨
      (∃ p ∈ rules, match_category text rules = p.1 ∧
        0 < labelScore (lowerS text) p.2 ∧
        ∀ q ∈ rules, labelScore (lowerS text) q.2 ≤ labelScore (lowerS text) p.2) := by
  cases hS : maxBySnd (scoresOf (lowerS text) rules) with
  | none =>
    left
    have hnil : scoresOf (lowerS text) rules = [] := (maxBySnd_eq_none _).mp hS
    constructor
    · show (match maxBySnd (scoresOf (lowerS text) rules) with
        | some best => best.1
        | none => "Unknown") = "Unknown"
      rw [hS]
    · intro p hp
      have h0 : 0 ≤ labelScore (lowerS text) p.2 := labelScore_nonneg _ _
      have hno : ¬ 0 < scoreLoop (lowerS text) p.2 := by
        intro hpos
        have hmem : (p.1, scoreLoop (lowerS text) p.2) ∈ scoresOf (lowerS text) rules := by
          rw [scoresOf_eq]
          exact List.mem_filterMap.mpr ⟨p, hp, by simp [hpos]⟩
        rw [hnil] at hmem
        simp at hmem
      rw [scoreLoop_eq] at hno
      exact le_antisymm (not_lt.mp hno) h0
  | some best =>
    right
    have hmem := maxBySnd_mem _ _ hS
    rw [scoresOf_eq] at hmem
    obtain ⟨p, hp, hf⟩ := List.mem_filterMap.mp hmem
    by_cases hpos : 0 < scoreLoop (lowerS text) p.2
    · rw [if_pos hpos] at hf
      have hbest : best = (p.1, scoreLoop (lowerS text) p.2) := (Option.some.inj hf).symm
      refine ⟨p, hp, ?_, ?_, ?_⟩
      · show (match maxBySnd (scoresOf (lowerS text) rules) with
          | some b => b.1
          | none => "Unknown") = p.1
        rw [hS, hbest]
      · rw [← scoreLoop_eq]; exact hpos
      · intro q hq
        rw [← scoreLoop_eq, ← scoreLoop_eq]
        by_cases hq0 : 0 < scoreLoop (lowerS text) q.2
        · have hqm : (q.1, scoreLoop (lowerS text) q.2) ∈ scoresOf (lowerS text) rules := by
            rw [scoresOf_eq]
            exact List.mem_filterMap.mpr ⟨q, hq, by simp [hq0]⟩
          have hle := maxBySnd_ge _ _ hS _ hqm
          rw [hbest] at hle
          exact hle
        · exact le_trans (not_lt.mp hq0) (le_of_lt hpos)
    · rw [if_neg hpos] at hf
      exact absurd hf (by simp)

/-- C2 (witness): the characterization at a concrete input. -/
theorem matcher_score_characterization_witness :
    (match_category "clinic visit" [("healthcare", ["clinic"]), ("finance", ["bank"])] = "Unknown" ∧
        ∀ p ∈ [("healthcare", ["clinic"]), ("finance", ["bank"])],
          labelScore (lowerS "clinic visit") p.2 = 0) ∨
      (∃ p ∈ [("healthcare", ["clinic"]), ("finance", ["bank"])],
        match_category "clinic visit" [("healthcare", ["clinic"]), ("finance", ["bank"])] = p.1 ∧
        0 < labelScore (lowerS "clinic visit") p.2 ∧
        ∀ q ∈ [("healthcare", ["clinic"]), ("finance", ["bank"])],
          labelScore (lowerS "clinic visit") q.2 ≤ labelScore (lowerS "clinic visit") p.2) :=
  matcher_score_characterization "clinic visit" [("healthcare", ["clinic"]), ("finance", ["bank"])]

/-- C3 (counterexample): on text "hello", no keyword of the taxonomy
occurs; the taxonomy designates the empty-keyword fallback label "all",
yet the matcher returns the literal "Unknown", which is neither the
fallback label nor the first label of the iteration order. -/
theorem matcher_fallback_is_unknown :
    match_category "hello" [("all", ([] : List String)), ("healthcare", ["clinic"])] = "Unknown" ∧
      ("Unknown" : String) ≠ "all" ∧ ("Unknown" : String) ≠ "healthcare" := by
  refine ⟨?_, by decide, by decide⟩
  show (match maxBySnd (scoresOf (lowerS "hello")
      [("all", ([] : List String)), ("healthcare", ["clinic"])]) with
    | some best => best.1
    | none => "Unknown") = "Unknown"
  rw [scoresOf_eq]
  norm_num [List.filterMap, scoreLoop_eq, labelScore, contrib,
    show lowerS "hello" = "hello" from by decide,
    show lowerS "clinic" = "clinic" from by decide,
    show substrB "clinic" "hello" = false from by decide, maxBySnd]

/-- C3 (amended): when no keyword of the taxonomy occurs as a substring of
the lower-cased input, the matcher returns the literal "Unknown",
regardless of any fallback label the taxonomy defines and of iteration
order. -/
theorem matcher_all_zero_unknown (text : String)
    (rules : List (String × List String))
    (h : ∀ p ∈ rules, ∀ kw ∈ p.2, substrB (lowerS kw) (lowerS text) = false) :
    match_category text rules = "Unknown" := by
  have hsl : ∀ p ∈ rules, scoreLoop (lowerS text) p.2 = 0 := by
    intro p hp
    rw [scoreLoop_eq]
    unfold labelScore
    apply List.sum_eq_zero
    intro x hx
    obtain ⟨kw, hkw, rfl⟩ := List.mem_map.mp hx
    unfold contrib
    simp [h p hp kw hkw]
  have hnil : scoresOf (lowerS text) rules = [] := by
    rw [scoresOf_eq]
    apply List.filterMap_eq_nil_iff.mpr
    intro p hp
    simp [hsl p hp]
  show (match maxBySnd (scoresOf (lowerS text) rules) with
    | some best => best.1
    | none => "Unknown") = "Unknown"
  rw [hnil]
  rfl

/-- C3 (witness): the amended fallback behaviour at a concrete input. -/
theorem matcher_all_zero_unknown_witness :
    match_category "hello" [("all", ([] : List String)), ("x", ["qq"])] = "Unknown" :=
  matcher_all_zero_unknown "hello" [("all", []), ("x", ["qq"])] (by decide)

/-- C8: the matcher is deterministic and effect-free: a call leaves the
rules mapping unchanged, and a second call on the state left by the first
returns the same label. -/
theorem matcher_effect_free_deterministic (text : String)
    (rules : List (String × List String)) :
    (match_category_call text rules).2 = rules ∧
      (match_category_call text ((match_category_call text rules).2)).1 =
        (match_category_call text rules).1 :=
  ⟨rfl, rfl⟩

/-- C10: for every input text and taxonomy, the returned label is one of
the taxonomy's own labels or the literal "Unknown". -/
theorem matcher_label_or_unknown (text : String)
    (rules : List (String × List String)) :
    match_category text rules = "Unknown" ∨
      ∃ p, p ∈ rules ∧ match_category text rules = p.1 := by
  cases hS : maxBySnd (scoresOf (lowerS text) rules) with
  | none =>
    left
    show (match maxBySnd (scoresOf (lowerS text) rules) with
      | some best => best.1
      | none => "Unknown") = "Unknown"
    rw [hS]
  | some best =>
    right
    have hmem := maxBySnd_mem _ _ hS
    rw [scoresOf_eq] at hmem
    obtain ⟨p, hp, hf⟩ := List.mem_filterMap.mp hmem
    by_cases hpos : 0 < scoreLoop (lowerS text) p.2
    · rw [if_pos hpos] at hf
      refine ⟨p, hp, ?_⟩
      show (match maxBySnd (scoresOf (lowerS text) rules) with
        | some b => b.1
        | none => "Unknown") = p.1
      rw [hS, ← Option.some.inj hf]
    · rw [if_neg hpos] at hf
      exact absurd hf (by simp)

/-- C10 (witness): the label-or-Unknown invariant at a concrete input. -/
theorem matcher_label_or_unknown_witness :
    match_category "patient data" default_data_types = "Unknown" ∨
      ∃ p, p ∈ default_data_types ∧ match_category "patient data" default_data_types = p.1 :=
  matcher_label_or_unknown "patient data" default_data_types

/-! ## Claims about the requirement filter and the summary metrics -/

/-- C1 (counterexample): a record whose Applies To set is exactly
the wildcard "global" and whose domain equals the matched domain is
included under the claim's rule (wildcard "all"/"global") but excluded by
the source, which treats only "all" as the applicability wildcard. -/
theorem filter_global_not_wildcard :
    claim_included "x" "y" "z"
        { complianceName := "Reg-G", domain := "x", appliesTo := some "global",
          followedBy := none, criticality := none, techReq := none,
          procReq := none, docReq := none, whyRequired := none,
          implementation := none, references := none } = true ∧
      rowMatches "x" "y" "z"
        { complianceName := "Reg-G", domain := "x", appliesTo := some "global",
          followedBy := none, criticality := none, techReq := none,
          procReq := none, docReq := none, whyRequired := none,
          implementation := none, references := none } = false := by
  constructor
  · decide
  · decide

/-- C1 (amended): a record is included iff (its lower-cased domain equals
the lower-cased matched domain OR is "all") AND (its parsed applicability
list contains the matched data-type label, OR the matched region label, OR
the wildcard "all" — "global" is not a wildcard); in particular a record
with Domain = "all" and Applies To = "all" is included for every
matched-label combination. -/
theorem filter_rule_characterization (dom dt rg : String) (r : Row) :
    (rowMatches dom dt rg r = true ↔
        ((lowerS dom = lowerS r.domain ∨ lowerS r.domain = "all") ∧
          (lowerS dt ∈ parseAppliesTo (r.appliesTo.getD "") ∨
            lowerS rg ∈ parseAppliesTo (r.appliesTo.getD "") ∨
            "all" ∈ parseAppliesTo (r.appliesTo.getD "")))) ∧
      rowMatches dom dt rg
        { r with domain := "all", appliesTo := some "all" } = true := by
  constructor
  · unfold rowMatches
    simp only [Bool.and_eq_true, Bool.or_eq_true, beq_iff_eq]
    simp
    tauto
  · unfold rowMatches
    simp [show lowerS "all" = "all" from by decide,
      show parseAppliesTo "all" = ["all"] from by decide]

/-- C5: the loop of `analyze_compliance` is a stable filter: its output is
the `buildMatch` image of the rows selected in original table order, and
the selected rows form an ordered subsequence of the input table (no
re-sorting, input rows untouched). -/
theorem filter_stable_ordered (dom dt rg : String) (rows : List Row) :
    compliance_matches dom dt rg rows =
        (matching_rows dom dt rg rows).map buildMatch ∧
      List.Sublist (matching_rows dom dt rg rows) rows := by
  constructor
  · have aux : ∀ (l : List Row) (acc : List MatchEntry),
        List.foldl
          (fun acc r => if rowMatches dom dt rg r then acc ++ [buildMatch r] else acc)
          acc l =
          acc ++ (l.filter (rowMatches dom dt rg)).map buildMatch := by
      intro l
      induction l with
      | nil => intro acc; simp
      | cons r l ih =>
        intro acc
        simp only [List.foldl_cons, List.filter_cons]
        by_cases h : rowMatches dom dt rg r = true
        · rw [if_pos h, ih, h]
          simp
        · rw [if_neg h, ih]
          simp only [Bool.not_eq_true] at h
          rw [h]
          simp
    unfold compliance_matches matching_rows
    rw [aux]
    simp
  · exact List.filter_sublist rows

/-- C6: the record-selection stage of the filter is idempotent: filtering
an already-filtered table again with the same matched labels returns the
same sequence of rows. -/
theorem matching_rows_idempotent (dom dt rg : String) (rows : List Row) :
    matching_rows dom dt rg (matching_rows dom dt rg rows) =
      matching_rows dom dt rg rows := by
  unfold matching_rows
  rw [List.filter_filter]
  simp

/-- C7 (counterexample): a record with no Criticality cell is analysed with
criticality "Medium", not the "Standard" priority the claim names. -/
theorem default_criticality_not_standard :
    (buildMatch
        { complianceName := "R1", domain := "finance", appliesTo := some "all",
          followedBy := none, criticality := none, techReq := none,
          procReq := none, docReq := none, whyRequired := none,
          implementation := none, references := none }).criticality = "Medium" ∧
      ("Medium" : String) ≠ "Standard" :=
  ⟨rfl, by decide⟩

/-- C7 (amended): a record whose optional cells are all missing is analysed
with the defaults of the source — followed false, criticality "Medium",
empty why-required and implementation texts, no references — and its
absent/NaN checklist cells are skipped rather than rendered as empty
items; in general the checklist keeps exactly the present checklist cells,
so missing optional columns are never fatal. -/
theorem defaults_characterization (name dom : String) (ap : Option String)
    (r : Row) :
    buildMatch
        { complianceName := name, domain := dom, appliesTo := ap,
          followedBy := none, criticality := none, techReq := none,
          procReq := none, docReq := none, whyRequired := none,
          implementation := none, references := none } =
      { name := name, followed := false, criticality := "Medium", why := "",
        implementation := "", checklist := [], references := [] } ∧
    (buildMatch r).checklist = [r.techReq, r.procReq, r.docReq].filterMap id :=
  ⟨rfl, rfl⟩

/-- C9: a record's followed field is true iff its Followed-flag cell,
stripped and lower-cased, equals "yes"; a missing cell or a value such as
" No " yields false. -/
theorem followed_iff_yes (r : Row) :
    ((buildMatch r).followed = true ↔
        lowerS (trimS (r.followedBy.getD "")) = "yes") ∧
      (buildMatch { r with followedBy := none }).followed = false ∧
      (buildMatch { r with followedBy := some " No " }).followed = false := by
  refine ⟨?_, rfl, rfl⟩
  show (lowerS (trimS (r.followedBy.getD "")) == "yes") = true ↔ _
  exact beq_iff_eq

/-- C4: at the failing input — an empty matched record set — the report
block of `main` produces no summary value (its unguarded
`len(already_compliant)/len(compliance_matches)` raises), instead of the
0% the claim promises. -/
theorem report_summary_empty_none : report_summary [] = none := rfl
